import Mathlib

/-!
Verification of the EmailGather school-directory scrapers
(`berlin_gather.py`, `saarland_gather.py`, `saxony_gather.py`).

The Python sources are shallowly embedded: strings are `String`
(operated on through their underlying `List Char`), Python dicts that
hold a record become association lists in insertion order, HTML
documents appear as the results the parsing capability would return for
each query the code performs, and fallible code returns `Except`.
-/

namespace EmailGather

/-- Characters treated as whitespace by Python `str.strip()` (ASCII range). -/
def isPyWs (c : Char) : Bool :=
  c = ' ' || c = '\t' || c = '\n' || c = '\r' || c = '\x0b' || c = '\x0c'

/-- Characters removed by `re.sub(r'[\t\n\r]+', '', …)`. -/
def isCtlChar (c : Char) : Bool :=
  c = '\t' || c = '\n' || c = '\r'

/-- Python `str.strip()` on a character list. -/
def stripL (l : List Char) : List Char :=
  ((l.dropWhile isPyWs).reverse.dropWhile isPyWs).reverse

/-- Python `str.strip()`. -/
def stripS (s : String) : String := ⟨stripL s.data⟩

/-- `re.sub(r'[\t\n\r]+', '', s)`: replacing runs of tab/newline/CR by the
empty string deletes every such character. -/
def removeCtl (l : List Char) : List Char :=
  l.filter (fun c => !isCtlChar c)

/-- Python `pat in s` substring test, on character lists. -/
def containsSub (pat : List Char) : List Char → Bool
  | [] => pat.isPrefixOf []
  | c :: rest => pat.isPrefixOf (c :: rest) || containsSub pat rest

/-- Python `pat in s` substring test. -/
def containsStr (pat s : String) : Bool := containsSub pat.data s.data

/-- Python `s.startswith(pre)`. -/
def pyStartsWith (s pre : String) : Bool := pre.data.isPrefixOf s.data

/-- Python `s.endswith(suf)`. -/
def pyEndsWith (s suf : String) : Bool := suf.data.isSuffixOf s.data

/-- Python `s.replace(pat, repl)`: left-to-right non-overlapping replacement.
The fuel argument (instantiated with the length of the list) makes the
recursion structural; each step consumes at least one character. -/
def replaceSubGo (pat repl : List Char) : Nat → List Char → List Char
  | 0, s => s
  | _ + 1, [] => []
  | fuel + 1, c :: rest =>
    if pat ≠ [] ∧ pat.isPrefixOf (c :: rest) then
      repl ++ replaceSubGo pat repl fuel (List.drop pat.length (c :: rest))
    else
      c :: replaceSubGo pat repl fuel rest

/-- Python `s.replace(pat, repl)` on character lists. -/
def replaceSub (pat repl s : List Char) : List Char :=
  replaceSubGo pat repl s.length s

/-- Python `s.replace(pat, repl)`. -/
def replaceS (s pat repl : String) : String :=
  ⟨replaceSub pat.data repl.data s.data⟩

/-- Value of a hexadecimal digit, as accepted by `urllib.parse.unquote`. -/
def hexVal (c : Char) : Option Nat :=
  if '0' ≤ c ∧ c ≤ '9' then some (c.toNat - '0'.toNat)
  else if 'a' ≤ c ∧ c ≤ 'f' then some (c.toNat - 'a'.toNat + 10)
  else if 'A' ≤ c ∧ c ≤ 'F' then some (c.toNat - 'A'.toNat + 10)
  else none

/-- `urllib.parse.unquote`: each `%XX` hex escape becomes the character with
that code; malformed escapes are kept verbatim.  The fuel argument
(instantiated with the length of the list) makes the recursion structural;
each step consumes at least one character. -/
def unquoteGo : Nat → List Char → List Char
  | 0, s => s
  | _ + 1, [] => []
  | fuel + 1, c :: rest =>
    if c = '%' then
      match rest with
      | a :: b :: rest2 =>
        match hexVal a, hexVal b with
        | some x, some y => Char.ofNat (16 * x + y) :: unquoteGo fuel rest2
        | _, _ => '%' :: unquoteGo fuel rest
      | _ => '%' :: unquoteGo fuel rest
    else c :: unquoteGo fuel rest

/-- `urllib.parse.unquote` on character lists. -/
def unquoteL (l : List Char) : List Char := unquoteGo l.length l

/-- `urllib.parse.unquote`. -/
def unquoteS (s : String) : String := ⟨unquoteL s.data⟩

/-- The email cleanup both Berlin code paths perform after obtaining the raw
address: `urllib.parse.unquote(email).strip()` followed by
`re.sub(r'[\t\n\r]+', '', email)`. -/
def decodeEmailS (s : String) : String :=
  ⟨removeCtl (stripL (unquoteL s.data))⟩

/-- Every character of the list strictly before the first occurrence of `c`. -/
def beforeChar (c : Char) (l : List Char) : List Char :=
  l.takeWhile (· ≠ c)

/-- Everything after the first occurrence of `c` (the whole remainder, as in
Python `split(c, 1)[1]` when `c` occurs). -/
def afterChar (c : Char) (l : List Char) : List Char :=
  (l.dropWhile (· ≠ c)).drop 1

/-- Python `', '.join(xs)`-style joining. -/
def pyJoin (sep : String) : List String → String
  | [] => ""
  | [x] => x
  | x :: y :: rest => x ++ sep ++ pyJoin sep (y :: rest)

/-- Python `s.rstrip(':')`. -/
def rstripColon (s : String) : String :=
  ⟨(s.data.reverse.dropWhile (· = ':')).reverse⟩

/-- Digit character, as matched by `\d` in the source regexes. -/
def isDigitChar (c : Char) : Bool := '0' ≤ c ∧ c ≤ '9'

/-! ## Records

A `school_data` dict is an association list in insertion order. -/

/-- A record: Python dict of field name to field value, in insertion order. -/
abbrev Rec := List (String × String)

/-- Python `d[k] = v`: update the value in place when the key exists,
append the new key at the end otherwise. -/
def dictSet : Rec → String → String → Rec
  | [], k, v => [(k, v)]
  | (k0, v0) :: rest, k, v =>
    if k0 = k then (k, v) :: rest else (k0, v0) :: dictSet rest k v

/-- Python `d.get(k)`: first (and only) binding of the key. -/
def lookupRec : Rec → String → Option String
  | [], _ => none
  | (k0, v0) :: rest, k => if k0 = k then some v0 else lookupRec rest k

/-! ## Normalizers -/

/-- `berlin_gather.get_school_details`, principal handling: convert
`"Surname, FirstName"` to `"FirstName Surname"`, detaching a `Dr.` title
from the surname part; a value without a comma passes through unchanged. -/
def reorderPrincipal (s : String) : String :=
  if containsStr "," s then
    let surname : String := ⟨beforeChar ',' s.data⟩
    let firstName : String := ⟨afterChar ',' s.data⟩
    if containsStr "Dr." surname then
      "Dr. " ++ stripS firstName ++ " " ++ stripS (replaceS surname "Dr." "")
    else
      stripS firstName ++ " " ++ stripS surname
  else s

/-- `saxony_gather.get_school_details`, school-name cleanup: remove all
double quotes, then turn a trailing `", Grundschule"` qualifier into
`" Grundschule"`. -/
def cleanName (s : String) : String :=
  let t := replaceS s "\"" ""
  if pyEndsWith t ", Grundschule" then
    replaceS t ", Grundschule" " Grundschule"
  else t

/-- `saxony_gather.get_school_details`, one principal entry:
`f"{name_text} ({title_text})"` with `name_text = name.text.strip()` and
`title_text = title.text.replace(name_text, '').strip()`. -/
def saxonyFormatPerson (nameT titleT : String) : String :=
  stripS nameT ++ " (" ++ stripS (replaceS titleT (stripS nameT) "") ++ ")"

/-- `saxony_gather.get_school_details`, principal loop: persons that carry
both a name heading and a title box become formatted entries; others are
skipped. -/
def saxonyPersonEntries : List (Option String × Option String) → List String
  | [] => []
  | (some n, some t) :: rest => saxonyFormatPerson n t :: saxonyPersonEntries rest
  | (some _, none) :: rest => saxonyPersonEntries rest
  | (none, _) :: rest => saxonyPersonEntries rest

/-! ## Berlin scraper (`berlin_gather.py`) -/

/-- An HTML anchor as the Berlin code reads it: `href` attribute and
visible text. -/
structure BAnchor where
  href : String
  text : String
deriving DecidableEq

/-- The detail page of one Berlin school, as the queryable-document
capability answers the `soup.find` calls of `get_school_details`:
each field holds the text (or anchor) of the first matching element,
or `none` when the element is absent.  The id-substring selectors
(including the `'Text' not in x` exclusion for phone, fax and principal)
are part of those queries. -/
structure BerlinDoc where
  lblSchulname : Option String
  lblSchulart : Option String
  lblStrasse : Option String
  lblOrt : Option String
  lblTelefon : Option String
  lblFax : Option String
  hlinkEMail : Option BAnchor
  hlinkWeb : Option BAnchor
  lblLeitung : Option String
  lblZusatz : Option String
deriving DecidableEq

/-- A Berlin detail page on which no queried element is found. -/
def emptyBerlinDoc : BerlinDoc :=
  ⟨none, none, none, none, none, none, none, none, none, none⟩

/-- The initial `school_data` dict of `berlin_gather.get_school_details`. -/
def berlinBase (schoolId : String) : Rec :=
  [("School ID", schoolId), ("School Name", ""), ("School Type", ""),
   ("Address", ""), ("Postal Code", ""), ("City", "Berlin"), ("Phone", ""),
   ("Fax", ""), ("Email", ""), ("Principal", ""), ("Additional Info", "")]

/-- Shared shape of the simple Berlin field rules: if the element was found,
store its stripped text under the given key. -/
def stepOptText (key : String) (v : Option String) (d : Rec) : Rec :=
  match v with
  | some t => dictSet d key (stripS t)
  | none => d

/-- `re.search(r'(\d{5})\s+Berlin', text)`: first position where five digits
are followed by whitespace and the literal `Berlin`; returns the digit
group. -/
def postalAt (l : List Char) : Option (List Char) :=
  let ds := l.take 5
  if ds.length = 5 ∧ ds.all isDigitChar then
    let r := l.drop 5
    if (r.takeWhile isPyWs) ≠ [] ∧ "Berlin".data.isPrefixOf (r.dropWhile isPyWs) then
      some ds
    else none
  else none

/-- Search loop for `postalAt` over every start position. -/
def searchPostalBerlin : List Char → Option (List Char)
  | [] => none
  | c :: rest =>
    match postalAt (c :: rest) with
    | some code => some code
    | none => searchPostalBerlin rest

/-- `re.search(r'Berlin\s+\(([^)]+)\)', text)` at one start position:
literal `Berlin`, whitespace, then a parenthesized nonempty group. -/
def districtAt (l : List Char) : Option (List Char) :=
  if "Berlin".data.isPrefixOf l then
    let r := l.drop "Berlin".data.length
    if (r.takeWhile isPyWs) ≠ [] then
      match r.dropWhile isPyWs with
      | '(' :: r3 =>
        let inner := r3.takeWhile (· ≠ ')')
        if inner ≠ [] ∧ (r3.drop inner.length).head? = some ')' then some inner
        else none
      | _ => none
    else none
  else none

/-- Search loop for `districtAt` over every start position. -/
def searchDistrict : List Char → Option (List Char)
  | [] => none
  | c :: rest =>
    match districtAt (c :: rest) with
    | some d => some d
    | none => searchDistrict rest

/-- Berlin postal-code/city rule: on the stripped `lblOrt` text, a match of
`(\d{5})\s+Berlin` stores the postal code, and only then a match of
`Berlin\s+\(([^)]+)\)` additionally inserts the `District` key. -/
def berlinStepOrt (v : Option String) (d : Rec) : Rec :=
  match v with
  | none => d
  | some t =>
    let txt := stripS t
    match searchPostalBerlin txt.data with
    | none => d
    | some code =>
      let d2 := dictSet d "Postal Code" ⟨code⟩
      match searchDistrict txt.data with
      | none => d2
      | some dist => dictSet d2 "District" ⟨dist⟩

/-- The raw Berlin email value before decoding: the `mailto:` target when the
anchor's href is a mail link, otherwise the anchor's visible text. -/
def berlinEmailRaw (a : BAnchor) : String :=
  if containsStr "mailto:" a.href then stripS (replaceS a.href "mailto:" "")
  else stripS a.text

/-- Berlin email rule: both the href path and the text fallback run the raw
value through `decodeEmailS`. -/
def berlinStepEmail (v : Option BAnchor) (d : Rec) : Rec :=
  match v with
  | some a => dictSet d "Email" (decodeEmailS (berlinEmailRaw a))
  | none => d

/-- Berlin website rule: `if web_elem and web_elem.text.strip():` inserts the
`Website` key. -/
def berlinStepWeb (v : Option BAnchor) (d : Rec) : Rec :=
  match v with
  | some a => if stripS a.text ≠ "" then dictSet d "Website" (stripS a.text) else d
  | none => d

/-- Berlin principal rule: reorder the stripped `lblLeitung` text. -/
def berlinStepPrincipal (v : Option String) (d : Rec) : Rec :=
  match v with
  | some t => dictSet d "Principal" (reorderPrincipal (stripS t))
  | none => d

/-- `berlin_gather.get_school_details`, extraction part: the sequential
field rules applied to the initial dict. -/
def berlinExtract (schoolId : String) (doc : BerlinDoc) : Rec :=
  let d := berlinBase schoolId
  let d := stepOptText "School Name" doc.lblSchulname d
  let d := stepOptText "School Type" doc.lblSchulart d
  let d := stepOptText "Address" doc.lblStrasse d
  let d := berlinStepOrt doc.lblOrt d
  let d := stepOptText "Phone" doc.lblTelefon d
  let d := stepOptText "Fax" doc.lblFax d
  let d := berlinStepEmail doc.hlinkEMail d
  let d := berlinStepWeb doc.hlinkWeb d
  let d := berlinStepPrincipal doc.lblLeitung d
  stepOptText "Additional Info" doc.lblZusatz d

/-- `berlin_gather.get_school_details`: fetching and parsing may raise, in
which case the whole unit degrades to `{"School ID": …, "Error": …}`. -/
def berlinGetDetails (env : String → Except String BerlinDoc) (schoolId : String) : Rec :=
  match env schoolId with
  | .ok doc => berlinExtract schoolId doc
  | .error m => [("School ID", schoolId), ("Error", m)]

/-! ## ID-list enumerators (`get_school_links` of Berlin and Saxony) -/

/-- One attempt to match `marker` followed (optionally after whitespace, for
the Berlin pattern `IDSchulzweig=\s*(\d+)`) by at least one digit, at the
head of the list; returns the digit group. -/
def markerIdAt (marker : List Char) (allowWs : Bool) (l : List Char) : Option (List Char) :=
  if marker.isPrefixOf l then
    let r := l.drop marker.length
    let r2 := if allowWs then r.dropWhile isPyWs else r
    let ds := r2.takeWhile isDigitChar
    if ds ≠ [] then some ds else none
  else none

/-- `re.search` for the id pattern: first start position at which
`markerIdAt` succeeds. -/
def searchMarkerId (marker : List Char) (allowWs : Bool) : List Char → Option (List Char)
  | [] => none
  | c :: rest =>
    match markerIdAt marker allowWs (c :: rest) with
    | some ds => some ds
    | none => searchMarkerId marker allowWs rest

/-- `re.search(r'IDSchulzweig=\s*(\d+)', href)` of `berlin_gather`. -/
def berlinExtractIdFromHref (href : String) : Option String :=
  (searchMarkerId "IDSchulzweig=".data true href.data).map (fun l => (⟨l⟩ : String))

/-- `re.search(r'institution_key=(\d+)', href)` of `saxony_gather`. -/
def saxonyExtractIdFromHref (href : String) : Option String :=
  (searchMarkerId "institution_key=".data false href.data).map (fun l => (⟨l⟩ : String))

/-- Python truthiness check `if page_limit and len(schools) >= page_limit`:
`None` and `0` are falsy, so neither triggers the early break. -/
def pyLimitHit (limit : Option Nat) (n : Nat) : Bool :=
  match limit with
  | none => false
  | some k => if k = 0 then false else decide (k ≤ n)

/-- The anchor loop shared by both `get_school_links` implementations:
anchors without a matching id pattern are skipped; after appending a
`(name, id)` pair the truthy limit check may break the loop. -/
def linksGo (idOf : String → Option String) (limit : Option Nat) :
    List BAnchor → List (String × String) → List (String × String)
  | [], acc => acc
  | a :: rest, acc =>
    match idOf a.href with
    | none => linksGo idOf limit rest acc
    | some i =>
      let acc2 := acc ++ [(stripS a.text, i)]
      if pyLimitHit limit acc2.length then acc2 else linksGo idOf limit rest acc2

/-- `get_school_links`: filter the page's anchors by the href marker
(`find_all` with the href lambda), then run the extraction loop. -/
def getSchoolLinksModel (idOf : String → Option String) (marker : String)
    (anchors : List BAnchor) (limit : Option Nat) : List (String × String) :=
  linksGo idOf limit (anchors.filter (fun a => containsStr marker a.href)) []

/-- `berlin_gather.get_school_links`. -/
def berlinGetSchoolLinks (anchors : List BAnchor) (limit : Option Nat) :
    List (String × String) :=
  getSchoolLinksModel berlinExtractIdFromHref "Schulportrait.aspx" anchors limit

/-- `saxony_gather.get_school_links`. -/
def saxonyGetSchoolLinks (anchors : List BAnchor) (limit : Option Nat) :
    List (String × String) :=
  getSchoolLinksModel saxonyExtractIdFromHref "institution_key=" anchors limit

/-! ## Collector / writer -/

/-- Outcome of the `finally` block of `scrape_schools`: either one CSV write
of all accumulated records, or the explicit "No data collected." report. -/
inductive WriteOutcome where
  | wrote (records : List Rec)
  | noData
deriving DecidableEq

/-- `finally: if all_data: df.to_csv(…) else: print("No data collected.")`. -/
def finalizeRun (records : List Rec) : WriteOutcome :=
  if records.isEmpty then .noData else .wrote records

/-- Comparison `len(all_data) >= schools_needed` where `schools_needed` is
`limit` or `float('inf')`. -/
def pyLenGe (needed : Option Nat) (n : Nat) : Bool :=
  match needed with
  | none => false
  | some k => decide (k ≤ n)

/-- The unit loop of `berlin_gather.scrape_schools` (Saxony's is identical):
break once enough records are collected; a cooperative interruption before
unit `processed + 1` (`stopAfter = some processed`) jumps to finalization;
otherwise fetch the unit's details and append exactly one record. -/
def berlinLoopGo (details : String → Rec) (needed stopAfter : Option Nat) :
    List (String × String) → Nat → List Rec → List Rec
  | [], _, acc => acc
  | (_, schoolId) :: rest, processed, acc =>
    if pyLenGe needed acc.length then acc
    else if stopAfter = some processed then acc
    else berlinLoopGo details needed stopAfter rest (processed + 1) (acc ++ [details schoolId])

/-- `berlin_gather.scrape_schools` over an already-enumerated unit list:
run the loop (with optional interruption point) and finalize once. -/
def berlinScrape (env : String → Except String BerlinDoc) (limit stopAfter : Option Nat)
    (units : List (String × String)) : WriteOutcome :=
  finalizeRun (berlinLoopGo (berlinGetDetails env) limit stopAfter units 0 [])

/-! ## Saxony scraper (`saxony_gather.py`) -/

/-- A direct child node of the Saxony visitor-address content span, as the
walk in `get_school_details` distinguishes them: a string node, a `<br>`,
an anchor (with its text), or any other element (skipped). -/
inductive AddrNode where
  | textNode (s : String)
  | brNode
  | anchorNode (t : String)
  | otherNode
deriving DecidableEq

/-- The `contact-visitor` paragraph: its `get_text(strip=True)` value and,
when present, the child nodes of its `contact-content` span. -/
structure VisitorPara where
  fullText : String
  contentSpan : Option (List AddrNode)
deriving DecidableEq

/-- One `p.contact*` sibling of the `Kontakt` heading, tagged by the class
branch the code takes; a contact paragraph of any other class is skipped. -/
inductive ContactPara where
  | visitor (v : VisitorPara)
  | phone (fullText : String)
  | mail (anchorText : Option String)
  | homepage (href : Option String)
  | otherContact
deriving DecidableEq

/-- The Saxony detail page as the capability answers the queries of
`get_school_details`: the `Kontakt` section's contact paragraphs (when the
heading exists), the `Schulart` paragraph text (when the whole
`Informationen → box-body → h4 → p` chain succeeds), and the
`Schulleitung` box persons as `(h4 text, box-text text)` pairs. -/
structure SaxonyDoc where
  kontakt : Option (List ContactPara)
  schulart : Option String
  schulleitung : Option (List (Option String × Option String))
deriving DecidableEq

/-- A Saxony detail page on which no queried element is found. -/
def emptySaxonyDoc : SaxonyDoc := ⟨none, none, none⟩

/-- The initial `school_data` dict of `saxony_gather.get_school_details`;
the name was already cleaned before the dict is built. -/
def saxonyBase (schoolId name : String) : Rec :=
  [("School ID", schoolId), ("School Name", name), ("School Type", ""),
   ("Address", "No address found"), ("Postal Code", "No postal code found"),
   ("City", "No city found"), ("Phone", ""), ("Fax", ""), ("Email", ""),
   ("Principal", ""), ("Website", ""), ("Additional Info", "")]

/-- The child-node walk of the visitor address span: keep stripped nonempty
string segments that are not the decorative `Zur Karte` link, skip `<br>`,
keep anchor text unless it is the `Zur Karte` link. -/
def collectAddrLines : List AddrNode → List String
  | [] => []
  | .textNode s :: rest =>
    let t := stripS s
    if t ≠ "" ∧ containsStr "Zur Karte" t = false then t :: collectAddrLines rest
    else collectAddrLines rest
  | .brNode :: rest => collectAddrLines rest
  | .anchorNode tx :: rest =>
    if containsStr "Zur Karte" tx = false then
      (let t := stripS tx
       if t ≠ "" then t :: collectAddrLines rest else collectAddrLines rest)
    else collectAddrLines rest
  | .otherNode :: rest => collectAddrLines rest

/-- Backtracking step of `re.match(r'(\d{5})\s+(.+)', …)`: try the greedy
whitespace run first, give characters back while the remainder would start
with a newline (which `.` cannot match) or be empty. -/
def tryWsSplit (l : List Char) : Nat → Option (List Char)
  | 0 => none
  | k + 1 =>
    match l.drop (k + 1) with
    | [] => tryWsSplit l k
    | c :: rest =>
      if c = '\n' then tryWsSplit l k
      else some ((c :: rest).takeWhile (· ≠ '\n'))

/-- `re.match(r'(\d{5})\s+(.+)', line)`: anchored at the start, five digits,
at least one whitespace character, then a nonempty run of non-newline
characters. -/
def matchPostalCity (s : String) : Option (String × String) :=
  let l := s.data
  let ds := l.take 5
  if ds.length = 5 ∧ ds.all isDigitChar then
    let r := l.drop 5
    match tryWsSplit r (r.takeWhile isPyWs).length with
    | some rest => some (⟨ds⟩, ⟨rest⟩)
    | none => none
  else none

/-- The `contact-visitor` branch: if the paragraph text carries
`Besucheradresse:` and the content span exists, collect the address lines;
given at least three lines, line 1 is the street address and line 2 is the
postal-code/city line. -/
def saxonyVisitor (d : Rec) (v : VisitorPara) : Rec :=
  if containsStr "Besucheradresse:" v.fullText then
    match v.contentSpan with
    | none => d
    | some nodes =>
      let lines := (collectAddrLines nodes).filter (fun l => l ≠ "")
      if 3 ≤ lines.length then
        let d2 := dictSet d "Address" (lines.getD 1 "")
        match matchPostalCity (lines.getD 2 "") with
        | some (pc, city) => dictSet (dictSet d2 "Postal Code" pc) "City" city
        | none => d2
      else d
  else d

/-- One contact paragraph.  The phone branch does
`phone_text.split(':', 1)[1]`, which raises `IndexError` when the text
contains `Telefon` but no colon; that exception escapes to the caller. -/
def saxonyStepContact (d : Rec) : ContactPara → Except String Rec
  | .visitor v => .ok (saxonyVisitor d v)
  | .phone t =>
    if containsStr "Telefon" t then
      if containsStr ":" t then .ok (dictSet d "Phone" (stripS ⟨afterChar ':' t.data⟩))
      else .error "IndexError: list index out of range"
    else .ok d
  | .mail a =>
    match a with
    | some tx => .ok (dictSet d "Email" (stripS tx))
    | none => .ok d
  | .homepage h =>
    match h with
    | some href => .ok (dictSet d "Website" (stripS href))
    | none => .ok d
  | .otherContact => .ok d

/-- Sequential processing of the contact paragraphs. -/
def saxonyContactFold (d : Rec) : List ContactPara → Except String Rec
  | [] => .ok d
  | p :: rest => do
    let d2 ← saxonyStepContact d p
    saxonyContactFold d2 rest

/-- `saxony_gather.get_school_details`, extraction part: clean the school
name, build the defaults, then process the `Kontakt`, `Informationen` and
`Schulleitung` sections. -/
def saxonyExtractE (schoolId schoolName : String) (doc : SaxonyDoc) : Except String Rec := do
  let name := cleanName schoolName
  let d0 := saxonyBase schoolId name
  let d1 ← match doc.kontakt with
    | some paras => saxonyContactFold d0 paras
    | none => pure d0
  let d2 := match doc.schulart with
    | some t => dictSet d1 "School Type" (replaceS (stripS t) "SchuleGrundschule" "Schule Grundschule")
    | none => d1
  let d3 := match doc.schulleitung with
    | some persons =>
      let entries := saxonyPersonEntries persons
      if entries ≠ [] then dictSet d2 "Principal" (pyJoin ", " entries) else d2
    | none => d2
  pure d3

/-- `saxony_gather.get_school_details`: any exception while fetching,
parsing or extracting degrades the unit to `{"School ID": …, "Error": …}`. -/
def saxonyGetDetails (schoolId schoolName : String) (env : Except String SaxonyDoc) : Rec :=
  match env with
  | .error m => [("School ID", schoolId), ("Error", m)]
  | .ok doc =>
    match saxonyExtractE schoolId schoolName doc with
    | .error m => [("School ID", schoolId), ("Error", m)]
    | .ok r => r

/-! ## Saarland fetcher (`saarland_gather._make_request`) -/

/-- What one `session.get` call produces: a response with status code and
body, or a network-level request exception (timeout, connection failure). -/
inductive Attempt where
  | resp (status : Nat) (content : String)
  | exc (msg : String)
deriving DecidableEq

/-- The `requests.RequestException` raised inside the try block: either the
`HTTPError` from `raise_for_status` (any status of 400 or above) or the
network exception itself. -/
inductive ReqError where
  | httpError (status : Nat)
  | netError (msg : String)
deriving DecidableEq

/-- `self.session.get(…)` followed by `response.raise_for_status()`:
an error status (400 and above, client and server errors alike) raises
`HTTPError`; otherwise the response is returned. -/
def attemptResult : Attempt → Except ReqError String
  | .resp st c => if 400 ≤ st then .error (.httpError st) else .ok c
  | .exc m => .error (.netError m)

/-- `True` exactly when the try block raised. -/
def isErr : Except ReqError String → Bool
  | .error _ => true
  | .ok _ => false

/-- Result of `_make_request`: the returned response content, the re-raised
last exception, or the implicit `None` when `max_retries` is `0` and the
loop body never runs. -/
inductive ReqResult where
  | ok (content : String)
  | raised (e : ReqError)
  | noneResult
deriving DecidableEq

/-- The retry loop of `_make_request`, from attempt index `i` with
`remaining` loop iterations left (`i + remaining = max_retries`):
a success returns immediately; a failure on the last iteration re-raises;
otherwise the code sleeps `retry_delay * 2 ** attempt` and continues.
The second component records the waits, in order. -/
def makeRequestGo (env : Nat → Attempt) (d : ℚ) : Nat → Nat → ReqResult × List ℚ
  | _, 0 => (.noneResult, [])
  | i, remaining + 1 =>
    match attemptResult (env i) with
    | .ok c => (.ok c, [])
    | .error e =>
      if remaining = 0 then (.raised e, [])
      else
        let r := makeRequestGo env d (i + 1) remaining
        (r.1, d * 2 ^ i :: r.2)

/-- `saarland_gather._make_request` with retry budget `maxRetries` and
backoff base `d`, run against the attempt outcomes `env`. -/
def makeRequest (env : Nat → Attempt) (maxRetries : Nat) (d : ℚ) : ReqResult × List ℚ :=
  makeRequestGo env d 0 maxRetries

/-- The claimed backoff sequence `base_delay * 2^attempt` for attempts
`i, i+1, …, i+n-1`. -/
def backoffWaits (d : ℚ) : Nat → Nat → List ℚ
  | _, 0 => []
  | i, n + 1 => d * 2 ^ i :: backoffWaits d (i + 1) n

/-! ## Saarland scraper (`saarland_gather.py`) -/

/-- One `dd` element of a Saarland card's `dl` block: its text, the href of
a `a[href^="mailto:"]` child when present, and the text of a
`a[target="_blank"]` child when present. -/
structure SaarlandDd where
  text : String
  mailtoHref : Option String
  blankLinkText : Option String
deriving DecidableEq

/-- One `.c-teaser-card` fragment, as the queries of `extract_school_data`
see it: headline, badge texts, the `dl` block's `dt` texts and `dd`
elements, and the address paragraph text. -/
structure SaarlandCard where
  headline : Option String
  badges : List String
  dl : Option (List String × List SaarlandDd)
  addressText : Option String
deriving DecidableEq

/-- The initial `school_data` dict of `saarland_gather.extract_school_data`. -/
def saarlandBase : Rec :=
  [("School Name", ""), ("School Type", ""), ("City", ""), ("Homepage", ""),
   ("Email", ""), ("Phone", ""), ("Fax", ""), ("Principal", ""), ("Address", "")]

/-- The value taken from one `dd`: the stripped text, overridden by the
`mailto:` target when a mail link is present (with no percent-decoding and
no control-character removal), then overridden by the text of a
`target="_blank"` link when one is present. -/
def saarlandDlValue (dd : SaarlandDd) : String :=
  let v := stripS dd.text
  let v := match dd.mailtoHref with
    | some href =>
      if pyStartsWith href "mailto:" then stripS (replaceS href "mailto:" "") else v
    | none => v
  match dd.blankLinkText with
  | some t => stripS t
  | none => v

/-- Dispatch of one `dt`/`dd` pair on the field label
(stripped, trailing colons removed). -/
def saarlandDlStep (d : Rec) (dt : String) (dd : SaarlandDd) : Rec :=
  let field := rstripColon (stripS dt)
  let value := saarlandDlValue dd
  if field = "Homepage" then dictSet d "Homepage" value
  else if field = "E-Mail" then dictSet d "Email" value
  else if field = "Telefon" then dictSet d "Phone" value
  else if field = "Telefax" then dictSet d "Fax" value
  else if field = "Schulleitung" then dictSet d "Principal" value
  else d

/-- The `for i in range(len(dt_elems)): if i < len(dd_elems)` loop: pairs of
`dt` and `dd` up to the shorter list. -/
def saarlandDlFold (d : Rec) : List (String × SaarlandDd) → Rec
  | [] => d
  | (dt, dd) :: rest => saarlandDlFold (saarlandDlStep d dt dd) rest

/-- `saarland_gather.extract_school_data` on one card. -/
def saarlandExtractCard (card : SaarlandCard) : Rec :=
  let d := saarlandBase
  let d := match card.headline with
    | some t => dictSet d "School Name" (stripS t)
    | none => d
  let d := match card.badges with
    | b0 :: b1 :: _ => dictSet (dictSet d "School Type" (stripS b0)) "City" (stripS b1)
    | _ => d
  let d := match card.dl with
    | some (dts, dds) => saarlandDlFold d (dts.zip dds)
    | none => d
  match card.addressText with
  | some t => dictSet d "Address" (stripS t)
  | none => d

/-- The page loop of `saarland_gather.scrape_schools` over the per-page card
lists the fetches return, in page order: an interruption (or run-fatal
exception) observed after `stop` complete pages jumps to finalization with
the records collected so far. -/
def saarlandLoop (stop : Option Nat) : List (List SaarlandCard) → Nat → List Rec → List Rec
  | [], _, acc => acc
  | pg :: rest, n, acc =>
    if stop = some n then acc
    else saarlandLoop stop rest (n + 1) (acc ++ pg.map saarlandExtractCard)

/-- `saarland_gather.scrape_schools`: run the page loop, then the `finally`
block writes once or reports "No data collected.". -/
def saarlandScrape (pages : List (List SaarlandCard)) (stop : Option Nat) : WriteOutcome :=
  finalizeRun (saarlandLoop stop pages 0 [])

/-! ## CSV writer capability

`df.to_csv` is the external tabular writer; the scrapers differ only in the
`quoting` constant they pass (`csv.QUOTE_ALL = 1` for Saarland and Saxony,
the `csv.QUOTE_MINIMAL = 0` default for Berlin). -/

/-- The `quoting` argument each scraper passes to `to_csv`:
`berlin_gather` passes none, so pandas uses the default `QUOTE_MINIMAL`. -/
def berlinCsvQuoting : Nat := 0

/-- `saarland_gather` passes `quoting=1` (`QUOTE_ALL`). -/
def saarlandCsvQuoting : Nat := 1

/-- `saxony_gather` passes `quoting=1` (`QUOTE_ALL`). -/
def saxonyCsvQuoting : Nat := 1

/-- CSV escaping: double every quote character inside a quoted field. -/
def csvEsc (l : List Char) : List Char :=
  replaceSub ['"'] ['"', '"'] l

/-- A field serialized with surrounding quotes. -/
def csvQuote (s : String) : String :=
  ⟨'"' :: csvEsc s.data ++ ['"']⟩

/-- `QUOTE_MINIMAL` quotes a field only when it contains the delimiter, the
quote character, or a line-terminator character. -/
def csvNeedsQuote (s : String) : Bool :=
  s.data.any (fun c => c = ',' || c = '"' || c = '\n' || c = '\r')

/-- One serialized field under the given `quoting` mode. -/
def csvField (quoting : Nat) (s : String) : String :=
  if quoting = 1 then csvQuote s
  else if csvNeedsQuote s then csvQuote s else s

/-- Whether a serialized field is quoted. -/
def isQuotedField (s : String) : Bool :=
  s.data.head? = some '"' && (s.data.getLast? = some '"') && decide (2 ≤ s.data.length)

/-- A string free of tab, newline and carriage-return characters. -/
def noCtl (s : String) : Bool :=
  s.data.all (fun c => !isCtlChar c)

/-! ## Helper lemmas: dictionaries -/

theorem lookupRec_dictSet_self (d : Rec) (k v : String) :
    lookupRec (dictSet d k v) k = some v := by
  induction d with
  | nil => simp [dictSet, lookupRec]
  | cons hd tl ih =>
    obtain ⟨k0, v0⟩ := hd
    by_cases h : k0 = k
    · simp [dictSet, h, lookupRec]
    · simp [dictSet, h, lookupRec, ih]

theorem lookupRec_dictSet_ne (d : Rec) (k v k' : String) (h : k' ≠ k) :
    lookupRec (dictSet d k v) k' = lookupRec d k' := by
  induction d with
  | nil => simp [dictSet, lookupRec, Ne.symm h]
  | cons hd tl ih =>
    obtain ⟨k0, v0⟩ := hd
    by_cases h0 : k0 = k
    · subst h0
      simp [dictSet, lookupRec, Ne.symm h]
    · simp [dictSet, h0, lookupRec, ih]

theorem lookupRec_dictSet_isSome (d : Rec) (k v k' : String)
    (h : (lookupRec d k').isSome = true) :
    (lookupRec (dictSet d k v) k').isSome = true := by
  by_cases hk : k' = k
  · subst hk; simp [lookupRec_dictSet_self]
  · rwa [lookupRec_dictSet_ne _ _ _ _ hk]

/-! ## Helper lemmas: substring and membership -/

theorem containsSub_singleton (c : Char) (l : List Char) :
    containsSub [c] l = true ↔ c ∈ l := by
  induction l with
  | nil => simp [containsSub, List.isPrefixOf]
  | cons d rest ih => simp [containsSub, List.isPrefixOf, ih, beq_iff_eq]

theorem mem_of_mem_dropWhile (p : Char → Bool) :
    ∀ (l : List Char) (a : Char), a ∈ l.dropWhile p → a ∈ l := by
  intro l
  induction l with
  | nil => simp
  | cons c rest ih =>
    intro a h
    rw [List.dropWhile_cons] at h
    by_cases hc : p c
    · simp only [hc, if_true] at h
      exact List.mem_cons_of_mem _ (ih a h)
    · simpa [hc] using h

theorem mem_of_mem_stripL (l : List Char) (a : Char) (h : a ∈ stripL l) : a ∈ l := by
  unfold stripL at h
  rw [List.mem_reverse] at h
  have h2 := mem_of_mem_dropWhile _ _ _ h
  rw [List.mem_reverse] at h2
  exact mem_of_mem_dropWhile _ _ _ h2

theorem mem_of_mem_drop (n : Nat) :
    ∀ (l : List Char) (a : Char), a ∈ List.drop n l → a ∈ l := by
  induction n with
  | zero => intro l a h; simpa using h
  | succ m ih =>
    intro l a h
    match l with
    | [] => simp at h
    | c :: rest => exact List.mem_cons_of_mem _ (ih rest a h)

/-! ## Helper lemmas: replace -/

theorem replaceSubGo_of_not_contains (pat repl : List Char) :
    ∀ (fuel : Nat) (s : List Char), containsSub pat s = false →
      replaceSubGo pat repl fuel s = s := by
  intro fuel
  induction fuel with
  | zero => intro s _; rfl
  | succ n ih =>
    intro s h
    match s with
    | [] => rfl
    | c :: rest =>
      simp only [containsSub, Bool.or_eq_false_iff] at h
      rw [replaceSubGo, if_neg (fun hh => by simp [h.1] at hh), ih rest h.2]

theorem not_mem_replaceSubGo (pat repl : List Char) (c : Char) :
    ∀ (fuel : Nat) (s : List Char), c ∉ s → c ∉ repl →
      c ∉ replaceSubGo pat repl fuel s := by
  intro fuel
  induction fuel with
  | zero => intro s hs _; exact hs
  | succ n ih =>
    intro s hs hr
    match s with
    | [] => simp [replaceSubGo]
    | d :: rest =>
      rw [replaceSubGo]
      by_cases hp : pat ≠ [] ∧ pat.isPrefixOf (d :: rest)
      · rw [if_pos hp]
        intro hmem
        rcases List.mem_append.1 hmem with h1 | h1
        · exact hr h1
        · exact ih _ (fun hd => hs (mem_of_mem_drop _ _ _ hd)) hr h1
      · rw [if_neg hp]
        intro hmem
        rcases List.mem_cons.1 hmem with h1 | h1
        · exact hs (h1 ▸ List.mem_cons_self _ _)
        · exact ih rest (fun hd => hs (List.mem_cons_of_mem _ hd)) hr h1

theorem removes_all_replaceSubGo (c : Char) :
    ∀ (fuel : Nat) (s : List Char), s.length ≤ fuel →
      c ∉ replaceSubGo [c] [] fuel s := by
  intro fuel
  induction fuel with
  | zero =>
    intro s hlen
    have hnil : s = [] := List.eq_nil_of_length_eq_zero (Nat.le_zero.mp hlen)
    subst hnil
    simp [replaceSubGo]
  | succ n ih =>
    intro s hlen
    match s with
    | [] => simp [replaceSubGo]
    | d :: rest =>
      have hrest : rest.length ≤ n := Nat.le_of_succ_le_succ (by simpa using hlen)
      rw [replaceSubGo]
      by_cases hd : d = c
      · subst hd
        rw [if_pos (by simp [List.isPrefixOf])]
        simpa using ih rest hrest
      · rw [if_neg (by
          rintro ⟨-, hpre⟩
          simp only [List.isPrefixOf, Bool.and_eq_true, beq_iff_eq] at hpre
          exact hd hpre.1.symm)]
        intro hmem
        rcases List.mem_cons.1 hmem with h1 | h1
        · exact hd h1.symm
        · exact ih rest hrest h1

/-! ## Helper lemmas: unquote -/

theorem unquoteGo_of_not_mem :
    ∀ (fuel : Nat) (s : List Char), '%' ∉ s → unquoteGo fuel s = s := by
  intro fuel
  induction fuel with
  | zero => intro s _; rfl
  | succ n ih =>
    intro s h
    match s with
    | [] => rfl
    | c :: rest =>
      have hc : ¬ c = '%' := fun hh => h (hh ▸ List.mem_cons_self _ _)
      show (if c = '%' then _ else c :: unquoteGo n rest) = c :: rest
      rw [if_neg hc, ih rest (fun hm => h (List.mem_cons_of_mem _ hm))]

theorem unquoteL_of_not_mem (l : List Char) (h : '%' ∉ l) : unquoteL l = l :=
  unquoteGo_of_not_mem _ l h

/-! ## Helper lemmas: strip -/

theorem head?_dropWhile_not (p : Char → Bool) :
    ∀ (l : List Char) (a : Char), (l.dropWhile p).head? = some a → p a = false := by
  intro l
  induction l with
  | nil => intro a h; simp [List.dropWhile] at h
  | cons c rest ih =>
    intro a h
    rw [List.dropWhile_cons] at h
    by_cases hc : p c
    · exact ih a (by simpa [hc] using h)
    · rw [if_neg hc] at h
      simp only [List.head?_cons, Option.some.injEq] at h
      subst h
      simpa using hc

theorem dropWhile_eq_self_of_head (p : Char → Bool) (l : List Char)
    (h : ∀ a, l.head? = some a → p a = false) : l.dropWhile p = l := by
  match l with
  | [] => rfl
  | c :: rest =>
    rw [List.dropWhile_cons, if_neg]
    simp [h c rfl]

theorem getLast?_dropWhile_of_ne_nil (p : Char → Bool) (l : List Char)
    (h : l.dropWhile p ≠ []) : (l.dropWhile p).getLast? = l.getLast? := by
  conv_rhs => rw [← List.takeWhile_append_dropWhile p l]
  rw [List.getLast?_append_of_ne_nil _ h]

theorem stripL_head_not_ws (l : List Char) (a : Char)
    (h : (stripL l).head? = some a) : isPyWs a = false := by
  unfold stripL at h
  rw [List.head?_reverse] at h
  have hv : (List.dropWhile isPyWs (List.dropWhile isPyWs l).reverse) ≠ [] := by
    intro hnil
    rw [hnil] at h
    simp at h
  rw [getLast?_dropWhile_of_ne_nil _ _ hv, List.getLast?_reverse] at h
  exact head?_dropWhile_not _ _ _ h

theorem stripL_last_not_ws (l : List Char) (a : Char)
    (h : (stripL l).getLast? = some a) : isPyWs a = false := by
  unfold stripL at h
  rw [List.getLast?_reverse] at h
  exact head?_dropWhile_not _ _ _ h

theorem stripL_eq_self (l : List Char)
    (hh : ∀ a, l.head? = some a → isPyWs a = false)
    (hl : ∀ a, l.getLast? = some a → isPyWs a = false) : stripL l = l := by
  unfold stripL
  rw [dropWhile_eq_self_of_head _ _ hh,
    dropWhile_eq_self_of_head _ _ (fun a ha => hl a (by rwa [List.head?_reverse] at ha))]
  exact List.reverse_reverse l

theorem stripL_idem (l : List Char) : stripL (stripL l) = stripL l :=
  stripL_eq_self _ (stripL_head_not_ws l) (stripL_last_not_ws l)

theorem head_filter_not_ws (q : Char → Bool) (hq : ∀ c, isPyWs c = false → q c = true)
    (m : List Char) (hm : ∀ a, m.head? = some a → isPyWs a = false) :
    ∀ a, (m.filter q).head? = some a → isPyWs a = false := by
  match m with
  | [] => intro a h; simp at h
  | c :: rest =>
    have hc : isPyWs c = false := hm c rfl
    rw [List.filter_cons_of_pos (hq c hc)]
    intro a h
    simp only [List.head?_cons, Option.some.injEq] at h
    exact h ▸ hc

theorem getLast_filter_not_ws (q : Char → Bool) (hq : ∀ c, isPyWs c = false → q c = true)
    (m : List Char) (hm : ∀ a, m.getLast? = some a → isPyWs a = false) :
    ∀ a, (m.filter q).getLast? = some a → isPyWs a = false := by
  intro a h
  rw [← List.head?_reverse, ← List.filter_reverse (p := q) (l := m)] at h
  exact head_filter_not_ws q hq m.reverse
    (fun b hb => hm b (by rwa [List.head?_reverse] at hb)) a h

theorem stripL_filter_stripL (q : Char → Bool) (hq : ∀ c, isPyWs c = false → q c = true)
    (l : List Char) : stripL ((stripL l).filter q) = (stripL l).filter q :=
  stripL_eq_self _
    (head_filter_not_ws q hq _ (stripL_head_not_ws l))
    (getLast_filter_not_ws q hq _ (stripL_last_not_ws l))

theorem notCtl_of_not_ws (c : Char) (h : isPyWs c = false) : (!isCtlChar c) = true := by
  simp only [isPyWs, Bool.or_eq_false_iff, decide_eq_false_iff_not] at h
  simp [isCtlChar, h.1.1.1.1.2, h.1.1.1.2, h.1.1.2]

theorem removeCtl_idem (x : List Char) : removeCtl (removeCtl x) = removeCtl x := by
  unfold removeCtl
  rw [List.filter_filter]
  simp

theorem decodeL_idem (x : List Char) (h : '%' ∉ x) :
    removeCtl (stripL (unquoteL (removeCtl (stripL (unquoteL x))))) =
      removeCtl (stripL (unquoteL x)) := by
  rw [unquoteL_of_not_mem x h]
  have hz : '%' ∉ removeCtl (stripL x) :=
    fun hm => h (mem_of_mem_stripL _ _ (List.mem_of_mem_filter hm))
  rw [unquoteL_of_not_mem _ hz,
    show stripL (removeCtl (stripL x)) = removeCtl (stripL x) from
      stripL_filter_stripL _ notCtl_of_not_ws x]
  exact removeCtl_idem _

theorem decodeEmailS_idem_of_no_percent (s : String) (h : '%' ∉ s.data) :
    decodeEmailS (decodeEmailS s) = decodeEmailS s :=
  congrArg String.mk (decodeL_idem s.data h)

theorem noCtl_decodeEmailS (s : String) : noCtl (decodeEmailS s) = true := by
  simp only [noCtl, decodeEmailS, removeCtl, List.all_eq_true]
  intro c hc
  exact (List.mem_filter.1 hc).2

/-! ## Helper lemmas: normalizers -/

theorem reorder_no_comma (s : String) (h : containsStr "," s = false) :
    reorderPrincipal s = s := by
  rw [reorderPrincipal, if_neg (by simp [h])]

theorem beforeChar_split (c : Char) (b : List Char) :
    ∀ (a : List Char), (∀ x ∈ a, x ≠ c) → beforeChar c (a ++ c :: b) = a := by
  intro a
  induction a with
  | nil => intro _; simp [beforeChar, List.takeWhile_cons]
  | cons d rest ih =>
    intro h
    have hd : d ≠ c := h d (List.mem_cons_self _ _)
    simp only [List.cons_append, beforeChar, List.takeWhile_cons, hd, decide_not]
    simpa [beforeChar] using ih (fun x hx => h x (List.mem_cons_of_mem _ hx))

theorem afterChar_split (c : Char) (b : List Char) :
    ∀ (a : List Char), (∀ x ∈ a, x ≠ c) → afterChar c (a ++ c :: b) = b := by
  intro a
  induction a with
  | nil => intro _; simp [afterChar, List.dropWhile_cons]
  | cons d rest ih =>
    intro h
    have hd : d ≠ c := h d (List.mem_cons_self _ _)
    simp only [List.cons_append, afterChar, List.dropWhile_cons, hd, decide_not]
    simpa [afterChar] using ih (fun x hx => h x (List.mem_cons_of_mem _ hx))

theorem containsStr_comma_split (a b : List Char) :
    containsStr "," ⟨a ++ ',' :: b⟩ = true := by
  rw [containsStr]
  show containsSub [','] (a ++ ',' :: b) = true
  rw [containsSub_singleton]
  exact List.mem_append.2 (Or.inr (List.mem_cons_self _ _))

theorem cleanName_no_quote (s : String) : '"' ∉ (cleanName s).data := by
  unfold cleanName
  have h1 : '"' ∉ (replaceS s "\"" "").data :=
    removes_all_replaceSubGo '"' _ s.data le_rfl
  by_cases he : pyEndsWith (replaceS s "\"" "") ", Grundschule" = true
  · rw [if_pos he]
    exact not_mem_replaceSubGo _ _ _ _ _ h1 (by decide)
  · rw [if_neg he]
    exact h1

theorem replaceS_quote_id (t : String) (h : '"' ∉ t.data) : replaceS t "\"" "" = t := by
  have : containsSub ['"'] t.data = false := by
    rcases Bool.eq_false_or_eq_true (containsSub ['"'] t.data) with ht | ht
    · exact absurd ((containsSub_singleton _ _).1 ht) h
    · exact ht
  exact congrArg String.mk (replaceSubGo_of_not_contains _ _ _ _ this)

theorem cleanName_idem (s : String)
    (h : pyEndsWith (cleanName s) ", Grundschule" = false) :
    cleanName (cleanName s) = cleanName s := by
  conv_lhs => rw [cleanName]
  rw [replaceS_quote_id _ (cleanName_no_quote s), if_neg (by simp [h])]

/-! ## Helper lemmas: fetcher -/

theorem makeRequestGo_success (env : Nat → Attempt) (d : ℚ) (c : String) :
    ∀ (rem i k : Nat), i ≤ k → k < i + rem →
      (∀ j, i ≤ j → j < k → isErr (attemptResult (env j)) = true) →
      attemptResult (env k) = .ok c →
      makeRequestGo env d i rem = (.ok c, backoffWaits d i (k - i)) := by
  intro rem
  induction rem with
  | zero => intro i k h1 h2 _ _; omega
  | succ n ih =>
    intro i k h1 h2 hfail hok
    by_cases hik : i = k
    · subst hik
      simp [makeRequestGo, hok, backoffWaits, Nat.sub_self]
    · have hlt : i < k := lt_of_le_of_ne h1 hik
      have hfi : isErr (attemptResult (env i)) = true := hfail i le_rfl hlt
      cases hA : attemptResult (env i) with
      | ok c2 => rw [hA] at hfi; simp [isErr] at hfi
      | error e =>
        have hn : ¬ n = 0 := by omega
        simp only [makeRequestGo, hA, if_neg hn]
        rw [ih (i + 1) k (by omega) (by omega)
          (fun j hj1 hj2 => hfail j (by omega) hj2) hok]
        have hki : k - i = (k - (i + 1)) + 1 := by omega
        rw [hki, backoffWaits]

theorem makeRequestGo_allfail (env : Nat → Attempt) (d : ℚ) (e : Nat → ReqError) :
    ∀ (rem i : Nat), 1 ≤ rem →
      (∀ j, i ≤ j → j < i + rem → attemptResult (env j) = .error (e j)) →
      makeRequestGo env d i rem =
        (.raised (e (i + rem - 1)), backoffWaits d i (rem - 1)) := by
  intro rem
  induction rem with
  | zero => intro i h1 _; omega
  | succ n ih =>
    intro i _ hfail
    have hAi : attemptResult (env i) = .error (e i) := hfail i le_rfl (by omega)
    by_cases hn : n = 0
    · subst hn
      simp [makeRequestGo, hAi, backoffWaits]
    · simp only [makeRequestGo, hAi, if_neg hn]
      rw [ih (i + 1) (by omega) (fun j hj1 hj2 => hfail j (by omega) (by omega))]
      have h1 : i + 1 + n - 1 = i + (n + 1) - 1 := by omega
      have h2 : n + 1 - 1 = (n - 1) + 1 := by omega
      rw [h1, h2, backoffWaits]

/-! ## Helper lemmas: collector loops -/

theorem berlinLoopGo_stopAfter (f : String → Rec) (N : Nat) :
    ∀ (units : List (String × String)) (p : Nat) (acc : List Rec), p ≤ N →
      berlinLoopGo f none (some N) units p acc =
        acc ++ (units.take (N - p)).map (fun u => f u.2) := by
  intro units
  induction units with
  | nil => intro p acc _; simp [berlinLoopGo]
  | cons u rest ih =>
    intro p acc hp
    obtain ⟨nm, sid⟩ := u
    by_cases hNp : N = p
    · subst hNp
      simp [berlinLoopGo, pyLenGe, Nat.sub_self]
    · have hlt : p < N := lt_of_le_of_ne hp (fun hh => hNp hh.symm)
      simp only [berlinLoopGo, pyLenGe, Bool.false_eq_true, if_false,
        Option.some.injEq, if_neg hNp]
      rw [ih (p + 1) (acc ++ [f sid]) (by omega)]
      have hk : N - p = (N - (p + 1)) + 1 := by omega
      rw [hk, List.take_succ_cons, List.map_cons, List.append_assoc]
      rfl

theorem berlinLoopGo_run_all (f : String → Rec) :
    ∀ (units : List (String × String)) (p : Nat) (acc : List Rec),
      berlinLoopGo f none none units p acc =
        acc ++ units.map (fun u => f u.2) := by
  intro units
  induction units with
  | nil => intro p acc; simp [berlinLoopGo]
  | cons u rest ih =>
    intro p acc
    obtain ⟨nm, sid⟩ := u
    simp only [berlinLoopGo, pyLenGe, Bool.false_eq_true, if_false,
      reduceCtorEq, if_neg (by simp : ¬ (none : Option Nat) = some p)]
    rw [ih (p + 1) (acc ++ [f sid]), List.map_cons, List.append_assoc]
    rfl

theorem saarlandLoop_stop (N : Nat) :
    ∀ (pages : List (List SaarlandCard)) (p : Nat) (acc : List Rec), p ≤ N →
      saarlandLoop (some N) pages p acc =
        acc ++ ((pages.take (N - p)).map (fun pg => pg.map saarlandExtractCard)).flatten := by
  intro pages
  induction pages with
  | nil => intro p acc _; simp [saarlandLoop]
  | cons pg rest ih =>
    intro p acc hp
    by_cases hNp : N = p
    · subst hNp
      simp [saarlandLoop, Nat.sub_self]
    · simp only [saarlandLoop, Option.some.injEq, if_neg hNp]
      rw [ih (p + 1) (acc ++ pg.map saarlandExtractCard) (by omega)]
      have hk : N - p = (N - (p + 1)) + 1 := by omega
      rw [hk, List.take_succ_cons, List.map_cons, List.flatten_cons, List.append_assoc]

/-! ## Helper lemmas: enumerator -/

theorem linksGo_unbounded (idOf : String → Option String) (limit : Option Nat)
    (hlim : ∀ n, pyLimitHit limit n = false) :
    ∀ (l : List BAnchor) (acc : List (String × String)),
      linksGo idOf limit l acc =
        acc ++ l.filterMap (fun a => (idOf a.href).map (fun i => (stripS a.text, i))) := by
  intro l
  induction l with
  | nil => intro acc; simp [linksGo]
  | cons a rest ih =>
    intro acc
    cases hid : idOf a.href with
    | none =>
      simp only [linksGo, hid]
      rw [ih]
      simp [List.filterMap_cons, hid]
    | some i =>
      simp only [linksGo, hid, hlim, Bool.false_eq_true, if_false]
      rw [ih]
      simp [List.filterMap_cons, hid]

/-! ## Helper lemmas: record-field bookkeeping -/

theorem lookup_stepOptText_ne (key : String) (v : Option String) (d : Rec) (k : String)
    (h : k ≠ key) : lookupRec (stepOptText key v d) k = lookupRec d k := by
  cases v with
  | none => rfl
  | some t => exact lookupRec_dictSet_ne _ _ _ _ h

theorem lookup_stepWeb_ne (v : Option BAnchor) (d : Rec) (k : String)
    (h : k ≠ "Website") : lookupRec (berlinStepWeb v d) k = lookupRec d k := by
  cases v with
  | none => rfl
  | some a =>
    by_cases ht : stripS a.text ≠ ""
    · simp only [berlinStepWeb, if_pos ht]
      exact lookupRec_dictSet_ne _ _ _ _ h
    · simp only [berlinStepWeb, if_neg ht]

theorem lookup_stepPrincipal_ne (v : Option String) (d : Rec) (k : String)
    (h : k ≠ "Principal") : lookupRec (berlinStepPrincipal v d) k = lookupRec d k := by
  cases v with
  | none => rfl
  | some t => exact lookupRec_dictSet_ne _ _ _ _ h

theorem isSome_stepOptText (key : String) (v : Option String) (d : Rec) (k : String)
    (h : (lookupRec d k).isSome = true) :
    (lookupRec (stepOptText key v d) k).isSome = true := by
  cases v with
  | none => exact h
  | some t => exact lookupRec_dictSet_isSome _ _ _ _ h

theorem isSome_stepOrt (v : Option String) (d : Rec) (k : String)
    (h : (lookupRec d k).isSome = true) :
    (lookupRec (berlinStepOrt v d) k).isSome = true := by
  cases v with
  | none => exact h
  | some t =>
    simp only [berlinStepOrt]
    cases searchPostalBerlin (stripS t).data with
    | none => exact h
    | some code =>
      cases searchDistrict (stripS t).data with
      | none => exact lookupRec_dictSet_isSome _ _ _ _ h
      | some dist =>
        exact lookupRec_dictSet_isSome _ _ _ _ (lookupRec_dictSet_isSome _ _ _ _ h)

theorem isSome_stepEmail (v : Option BAnchor) (d : Rec) (k : String)
    (h : (lookupRec d k).isSome = true) :
    (lookupRec (berlinStepEmail v d) k).isSome = true := by
  cases v with
  | none => exact h
  | some a => exact lookupRec_dictSet_isSome _ _ _ _ h

theorem isSome_stepWeb (v : Option BAnchor) (d : Rec) (k : String)
    (h : (lookupRec d k).isSome = true) :
    (lookupRec (berlinStepWeb v d) k).isSome = true := by
  cases v with
  | none => exact h
  | some a =>
    by_cases ht : stripS a.text ≠ ""
    · simp only [berlinStepWeb, if_pos ht]
      exact lookupRec_dictSet_isSome _ _ _ _ h
    · simp only [berlinStepWeb, if_neg ht]
      exact h

theorem isSome_stepPrincipal (v : Option String) (d : Rec) (k : String)
    (h : (lookupRec d k).isSome = true) :
    (lookupRec (berlinStepPrincipal v d) k).isSome = true := by
  cases v with
  | none => exact h
  | some t => exact lookupRec_dictSet_isSome _ _ _ _ h

/-! ## Claims -/

/-- C2: `_make_request` retries on timeout, connection failure or error
status, with `max_retries` total attempts and waits of
`base_delay * 2^attempt` between attempts (attempt counted from 0); a
successful response at any attempt short-circuits and returns that
response's content; when every attempt fails, the last cause is re-raised
after the final attempt instead of retrying. -/
theorem c2_fetch_retry_backoff :
    (∀ (env : Nat → Attempt) (mr k : Nat) (d : ℚ) (c : String),
      k < mr →
      (∀ j, j < k → isErr (attemptResult (env j)) = true) →
      attemptResult (env k) = .ok c →
      makeRequest env mr d = (.ok c, backoffWaits d 0 k))
    ∧ (∀ (env : Nat → Attempt) (mr : Nat) (d : ℚ) (e : Nat → ReqError),
      1 ≤ mr →
      (∀ j, j < mr → attemptResult (env j) = .error (e j)) →
      makeRequest env mr d = (.raised (e (mr - 1)), backoffWaits d 0 (mr - 1))) := by
  constructor
  · intro env mr k d c h1 h2 h3
    have h := makeRequestGo_success env d c mr 0 k (Nat.zero_le k) (by omega)
      (fun j _ hj => h2 j hj) h3
    simpa [makeRequest] using h
  · intro env mr d e h1 h2
    have h := makeRequestGo_allfail env d e mr 0 h1 (fun j _ hj => h2 j (by omega))
    simpa [makeRequest] using h

/-- C2 witness: simulated fetch where the first two attempts raise a timeout
and the third succeeds, with `max_retries = 3` and `retry_delay = 2`: the
call returns the third response's content after waiting 2 then 4 seconds. -/
theorem c2_fetch_retry_backoff_witness :
    makeRequest (fun i => if i < 2 then .exc "timeout" else .resp 200 "page3") 3 2 =
      (.ok "page3", [2, 4]) := by
  have h := c2_fetch_retry_backoff.1
    (fun i => if i < 2 then .exc "timeout" else .resp 200 "page3")
    3 2 2 "page3" (by omega) (by decide) rfl
  rw [h]
  norm_num [backoffWaits]

/-- C6 counterexample: a 404 client-error status is retried with backoff
(waits 2 and 4 consumed, all three attempts used) instead of failing
immediately without consuming retry budget. -/
theorem c6_counterexample :
    makeRequest (fun _ => .resp 404 "") 3 2 = (.raised (.httpError 404), [2, 4])
    ∧ ([2, 4] : List ℚ) ≠ [] := by
  constructor
  · norm_num [makeRequest, makeRequestGo, attemptResult]
  · simp

/-- C6 amended: a client-error status is not treated as non-retryable:
`raise_for_status` raises for any status of 400 and above and the handler
catches every `RequestException`, so with `max_retries = 3` a persistent
client error consumes all three attempts, waiting `d` then `2 * d`, before
the `HTTPError` is re-raised; only a successful status short-circuits. -/
theorem c6_client_error_retried (st : Nat) (c : String) (d : ℚ)
    (h4 : 400 ≤ st) (_h5 : st < 500) :
    makeRequest (fun _ => .resp st c) 3 d =
      (.raised (.httpError st), [d, d * 2]) := by
  have h := makeRequestGo_allfail (fun _ => .resp st c) d (fun _ => .httpError st) 3 0
    (by omega) (fun j _ _ => by simp [attemptResult, if_pos h4])
  simpa [makeRequest, backoffWaits] using h

/-- C6 witness: the amended statement at status 404 with `retry_delay = 2`. -/
theorem c6_client_error_retried_witness :
    makeRequest (fun _ => .resp 404 "x") 3 2 =
      (.raised (.httpError 404), [(2 : ℚ), 4]) := by
  have h := c6_client_error_retried 404 "x" 2 (by omega) (by omega)
  rw [h]
  norm_num

/-- C9: calling either ID-list enumerator with `limit = 0` behaves exactly
as the unbounded call, returning every matching anchor in document order,
because the Python truthiness check treats a zero limit like no limit. -/
theorem c9_zero_limit_unbounded (anchors : List BAnchor) :
    berlinGetSchoolLinks anchors (some 0) = berlinGetSchoolLinks anchors none
    ∧ berlinGetSchoolLinks anchors (some 0) =
        (anchors.filter (fun a => containsStr "Schulportrait.aspx" a.href)).filterMap
          (fun a => (berlinExtractIdFromHref a.href).map (fun i => (stripS a.text, i)))
    ∧ saxonyGetSchoolLinks anchors (some 0) = saxonyGetSchoolLinks anchors none
    ∧ saxonyGetSchoolLinks anchors (some 0) =
        (anchors.filter (fun a => containsStr "institution_key=" a.href)).filterMap
          (fun a => (saxonyExtractIdFromHref a.href).map (fun i => (stripS a.text, i))) := by
  have h0 : ∀ n, pyLimitHit (some 0) n = false := fun _ => rfl
  have hn : ∀ n, pyLimitHit (none : Option Nat) n = false := fun _ => rfl
  refine ⟨?_, ?_, ?_, ?_⟩ <;>
    simp [berlinGetSchoolLinks, saxonyGetSchoolLinks, getSchoolLinksModel,
      linksGo_unbounded _ _ h0, linksGo_unbounded _ _ hn]

/-- C5: principal reordering splits the raw value on the first comma into
surname and given-name parts, yielding `"<given name> <surname>"`; a `Dr.`
title inside the surname part is detached to the front; a value without a
comma passes through unchanged; the spec's two examples hold; and Saxony
formats each principal as `"<name> (<role text>)"`, joining several with
`", "`. -/
theorem c5_reorder_principal :
    (∀ (a b : List Char), (∀ x ∈ a, x ≠ ',') →
      reorderPrincipal ⟨a ++ ',' :: b⟩ =
        (if containsStr "Dr." ⟨a⟩ then
          "Dr. " ++ stripS ⟨b⟩ ++ " " ++ stripS (replaceS ⟨a⟩ "Dr." "")
        else stripS ⟨b⟩ ++ " " ++ stripS ⟨a⟩))
    ∧ (∀ s, containsStr "," s = false → reorderPrincipal s = s)
    ∧ reorderPrincipal "Müller, Anna" = "Anna Müller"
    ∧ reorderPrincipal "Dr. Müller, Anna" = "Dr. Anna Müller"
    ∧ (∀ n1 t1 n2 t2 : String,
        saxonyPersonEntries [(some n1, some t1), (some n2, some t2)] =
          [saxonyFormatPerson n1 t1, saxonyFormatPerson n2 t2]
        ∧ pyJoin ", " [saxonyFormatPerson n1 t1, saxonyFormatPerson n2 t2] =
            saxonyFormatPerson n1 t1 ++ ", " ++ saxonyFormatPerson n2 t2)
    ∧ (∀ idv nm n1 t1 n2 t2 : String,
        lookupRec
          (saxonyGetDetails idv nm
            (.ok ⟨none, none, some [(some n1, some t1), (some n2, some t2)]⟩))
          "Principal"
        = some (saxonyFormatPerson n1 t1 ++ ", " ++ saxonyFormatPerson n2 t2)) := by
  refine ⟨?_, fun s h => reorder_no_comma s h, by decide, by decide,
    fun n1 t1 n2 t2 => ⟨rfl, rfl⟩, fun idv nm n1 t1 n2 t2 => rfl⟩
  intro a b h
  have hc := containsStr_comma_split a b
  have hb : beforeChar ',' (a ++ ',' :: b) = a := beforeChar_split ',' b a h
  have ha : afterChar ',' (a ++ ',' :: b) = b := afterChar_split ',' b a h
  rw [reorderPrincipal, if_pos (by simp [hc])]
  simp only [hb, ha]

/-- C5 witness: the split rule applied at a concrete comma-separated value,
and the passthrough rule at a comma-free value. -/
theorem c5_reorder_principal_witness :
    reorderPrincipal "Schulz, Max" = "Max Schulz"
    ∧ reorderPrincipal "Meier" = "Meier" := by
  constructor
  · have h := c5_reorder_principal.1 "Schulz".data " Max".data (by decide)
    have he : (⟨"Schulz".data ++ ',' :: " Max".data⟩ : String) = "Schulz, Max" := by decide
    rw [he] at h
    rw [h]
    decide
  · exact c5_reorder_principal.2.1 "Meier" (by decide)

/-- C8 counterexample: none of the three normalizers is idempotent on every
input: `decode_email` decodes a nested percent-escape twice,
`reorder_principal` re-splits an output that still contains a comma, and
`clean_name` re-normalizes a freshly created `", Grundschule"` suffix. -/
theorem c8_counterexample :
    decodeEmailS (decodeEmailS "info%2540schule.de") ≠ decodeEmailS "info%2540schule.de"
    ∧ reorderPrincipal (reorderPrincipal "A, B, C") ≠ reorderPrincipal "A, B, C"
    ∧ cleanName (cleanName ",, Grundschule") ≠ cleanName ",, Grundschule" :=
  ⟨by decide, by decide, by decide⟩

/-- C8 amended: each normalizer is idempotent once its trigger is gone:
`decode_email` on inputs without a percent sign, `reorder_principal` on
values whose reordered form contains no comma, and `clean_name` on values
whose cleaned form no longer ends in `", Grundschule"`. -/
theorem c8_normalizer_conditional_idempotence :
    (∀ s : String, '%' ∉ s.data → decodeEmailS (decodeEmailS s) = decodeEmailS s)
    ∧ (∀ s : String, containsStr "," (reorderPrincipal s) = false →
        reorderPrincipal (reorderPrincipal s) = reorderPrincipal s)
    ∧ (∀ s : String, pyEndsWith (cleanName s) ", Grundschule" = false →
        cleanName (cleanName s) = cleanName s) :=
  ⟨decodeEmailS_idem_of_no_percent,
   fun _ h => reorder_no_comma _ h,
   cleanName_idem⟩

/-- C8 witness: the three conditional idempotence statements at concrete
inputs. -/
theorem c8_normalizer_conditional_idempotence_witness :
    decodeEmailS (decodeEmailS " info@schule.de ") = decodeEmailS " info@schule.de "
    ∧ reorderPrincipal (reorderPrincipal "Müller, Anna") = reorderPrincipal "Müller, Anna"
    ∧ cleanName (cleanName "\"Astrid-Lindgren-Schule\"") =
        cleanName "\"Astrid-Lindgren-Schule\"" :=
  ⟨c8_normalizer_conditional_idempotence.1 _ (by decide),
   c8_normalizer_conditional_idempotence.2.1 _ (by decide),
   c8_normalizer_conditional_idempotence.2.2 _ (by decide)⟩

/-- C7 counterexample: the Berlin writer passes no `quoting` argument, so
pandas uses minimal quoting and a plain value is written unquoted. -/
theorem c7_counterexample :
    csvField berlinCsvQuoting "Grundschule am Park" = "Grundschule am Park"
    ∧ isQuotedField "Grundschule am Park" = false :=
  ⟨by decide, by decide⟩

/-- C7 amended: the Saarland and Saxony writers pass `quoting=1`
(`QUOTE_ALL`), so every field value is quoted regardless of content; the
Berlin writer uses the default minimal quoting, leaving a value unquoted
whenever it contains no delimiter, quote or newline character. -/
theorem c7_quote_all_saarland_saxony_minimal_berlin (s : String) :
    csvField saarlandCsvQuoting s = csvQuote s
    ∧ csvField saxonyCsvQuoting s = csvQuote s
    ∧ isQuotedField (csvQuote s) = true
    ∧ (csvNeedsQuote s = false → csvField berlinCsvQuoting s = s) := by
  refine ⟨rfl, rfl, ?_, fun h => by simp [csvField, berlinCsvQuoting, h]⟩
  simp only [isQuotedField, csvQuote, Bool.and_eq_true, decide_eq_true_eq]
  refine ⟨⟨rfl, ?_⟩, ?_⟩
  · show ('"' :: (csvEsc s.data ++ ['"'])).getLast? = some '"'
    rw [← List.cons_append, List.getLast?_concat]
  · show 2 ≤ ('"' :: (csvEsc s.data ++ ['"'])).length
    simp

/-- C7 witness: the quoting behaviors at a concrete value. -/
theorem c7_quote_all_witness :
    csvField saarlandCsvQuoting "abc" = "\"abc\""
    ∧ csvField berlinCsvQuoting "abc" = "abc" := by
  refine ⟨?_, (c7_quote_all_saarland_saxony_minimal_berlin "abc").2.2.2 (by decide)⟩
  rw [(c7_quote_all_saarland_saxony_minimal_berlin "abc").1]
  decide

/-- C1 counterexample: Saxony defaults `Address` (and postal code and city)
to a non-empty placeholder rather than the empty string, and Berlin's
`Website` key is absent altogether when no website anchor is found. -/
theorem c1_counterexample :
    lookupRec (saxonyGetDetails "42" "Testschule" (.ok emptySaxonyDoc)) "Address"
        = some "No address found"
    ∧ some "No address found" ≠ some ""
    ∧ lookupRec (berlinExtract "42" emptyBerlinDoc) "Website" = none :=
  ⟨by decide, by decide, by decide⟩

/-- C1 amended: each extractor starts from a fixed base dict whose defaults
a missing element leaves untouched; the defaults are the empty string except
that Berlin presets `City` to `"Berlin"` and adds `District` and `Website`
only when found, while Saxony presets `Address`, `Postal Code` and `City`
to non-empty placeholder strings; Saarland's base keys all default to the
empty string. -/
theorem c1_field_defaults :
    (∀ idv : String, berlinExtract idv emptyBerlinDoc = berlinBase idv)
    ∧ (∀ idv : String,
        lookupRec (berlinBase idv) "City" = some "Berlin"
        ∧ lookupRec (berlinBase idv) "Website" = none
        ∧ lookupRec (berlinBase idv) "District" = none
        ∧ lookupRec (berlinBase idv) "Email" = some "")
    ∧ (∀ (idv k : String), (lookupRec (berlinBase idv) k).isSome = true →
        ∀ doc : BerlinDoc, (lookupRec (berlinExtract idv doc) k).isSome = true)
    ∧ (∀ idv nm : String,
        saxonyGetDetails idv nm (.ok emptySaxonyDoc) = saxonyBase idv (cleanName nm))
    ∧ (∀ idv nm : String,
        lookupRec (saxonyBase idv nm) "Address" = some "No address found"
        ∧ lookupRec (saxonyBase idv nm) "Postal Code" = some "No postal code found"
        ∧ lookupRec (saxonyBase idv nm) "City" = some "No city found"
        ∧ lookupRec (saxonyBase idv nm) "Email" = some "")
    ∧ saarlandExtractCard ⟨none, [], none, none⟩ = saarlandBase
    ∧ (∀ k v : String, (k, v) ∈ saarlandBase → v = "") := by
  refine ⟨fun idv => rfl, fun idv => ⟨rfl, rfl, rfl, rfl⟩, ?_,
    fun idv nm => rfl, fun idv nm => ⟨rfl, rfl, rfl, rfl⟩, rfl, ?_⟩
  · intro idv k h doc
    unfold berlinExtract
    exact isSome_stepOptText _ _ _ _
      (isSome_stepPrincipal _ _ _
        (isSome_stepWeb _ _ _
          (isSome_stepEmail _ _ _
            (isSome_stepOptText _ _ _ _
              (isSome_stepOptText _ _ _ _
                (isSome_stepOrt _ _ _
                  (isSome_stepOptText _ _ _ _
                    (isSome_stepOptText _ _ _ _
                      (isSome_stepOptText _ _ _ _ h)))))))))
  · intro k v h
    simp only [saarlandBase, List.mem_cons, List.not_mem_nil, or_false,
      Prod.mk.injEq] at h
    rcases h with ⟨-, h⟩ | ⟨-, h⟩ | ⟨-, h⟩ | ⟨-, h⟩ | ⟨-, h⟩ | ⟨-, h⟩ | ⟨-, h⟩ |
      ⟨-, h⟩ | ⟨-, h⟩ <;> exact h

/-- C1 witness: the key-preservation part at a concrete document. -/
theorem c1_field_defaults_witness :
    (lookupRec
      (berlinExtract "7"
        ⟨some "Schule A", none, none, none, none, none,
         some ⟨"mailto:a@b.de", "a@b.de"⟩, none, none, none⟩)
      "Email").isSome = true :=
  c1_field_defaults.2.2.1 "7" "Email" (by decide)
    ⟨some "Schule A", none, none, none, none, none,
     some ⟨"mailto:a@b.de", "a@b.de"⟩, none, none, none⟩

/-- C4 counterexample: the Saarland extractor stores the raw `mailto:`
target with only whitespace stripping — the stored value still contains the
percent escape, while the decoded form the claim requires differs. -/
theorem c4_counterexample :
    lookupRec
        (saarlandExtractCard
          ⟨none, [], some (["E-Mail:"], [⟨"", some "mailto:info%40schule.de", none⟩]), none⟩)
        "Email" = some "info%40schule.de"
    ∧ decodeEmailS "info%40schule.de" = "info@schule.de"
    ∧ ("info%40schule.de" : String) ≠ "info@schule.de" :=
  ⟨by decide, by decide, by decide⟩

/-- C4 amended: in the Berlin source both the mailto-href path and the
visible-text fallback feed the stored email through the same decoding step
(percent-decode, strip, remove tab/newline/CR), so the stored value is free
of those control characters; the Saarland source instead stores the raw
mailto target with only whitespace stripping and no percent-decoding. -/
theorem c4_email_decoding :
    (∀ (idv : String) (doc : BerlinDoc) (a : BAnchor), doc.hlinkEMail = some a →
      lookupRec (berlinExtract idv doc) "Email" = some (decodeEmailS (berlinEmailRaw a))
      ∧ noCtl (decodeEmailS (berlinEmailRaw a)) = true
      ∧ (containsStr "mailto:" a.href = true →
          berlinEmailRaw a = stripS (replaceS a.href "mailto:" ""))
      ∧ (containsStr "mailto:" a.href = false → berlinEmailRaw a = stripS a.text))
    ∧ (∀ (href txt : String), pyStartsWith href "mailto:" = true →
        lookupRec
          (saarlandExtractCard ⟨none, [], some (["E-Mail:"], [⟨txt, some href, none⟩]), none⟩)
          "Email" = some (stripS (replaceS href "mailto:" ""))) := by
  constructor
  · intro idv doc a ha
    refine ⟨?_, noCtl_decodeEmailS _,
      fun hm => by simp [berlinEmailRaw, hm],
      fun hm => by simp [berlinEmailRaw, hm]⟩
    have e1 : ("Email" : String) ≠ "Additional Info" := by decide
    have e2 : ("Email" : String) ≠ "Principal" := by decide
    have e3 : ("Email" : String) ≠ "Website" := by decide
    simp only [berlinExtract, lookup_stepOptText_ne _ _ _ _ e1,
      lookup_stepPrincipal_ne _ _ _ e2, lookup_stepWeb_ne _ _ _ e3, ha,
      berlinStepEmail, lookupRec_dictSet_self]
  · intro href txt h
    show lookupRec (saarlandDlFold saarlandBase [("E-Mail:", ⟨txt, some href, none⟩)]) "Email" = _
    simp only [saarlandDlFold, saarlandDlStep]
    rw [show rstripColon (stripS "E-Mail:") = "E-Mail" from by decide]
    rw [if_neg (by decide), if_pos rfl, lookupRec_dictSet_self]
    simp only [saarlandDlValue, h, if_pos]

/-- C4 witness: a Berlin document whose email anchor carries a
percent-encoded mailto target stores the decoded address. -/
theorem c4_email_decoding_witness :
    lookupRec
        (berlinExtract "1"
          ⟨none, none, none, none, none, none,
           some ⟨"mailto:info%40schule.de", "ignored"⟩, none, none, none⟩)
        "Email" = some "info@schule.de" := by
  have h := (c4_email_decoding.1 "1"
    ⟨none, none, none, none, none, none,
     some ⟨"mailto:info%40schule.de", "ignored"⟩, none, none, none⟩
    ⟨"mailto:info%40schule.de", "ignored"⟩ rfl).1
  rw [h]
  decide

/-- C3: a run interrupted after N of M units have been collected still
performs exactly one write of an artifact holding exactly those N records
in discovery order (for the Berlin unit loop and the Saarland page loop
alike); when zero records were collected, no file is produced and the
explicit no-data outcome is reported. -/
theorem c3_interrupt_partial_write :
    (∀ (env : String → Except String BerlinDoc) (units : List (String × String)) (N : Nat),
      1 ≤ N → N ≤ units.length →
      berlinScrape env none (some N) units =
        .wrote ((units.take N).map (fun u => berlinGetDetails env u.2)))
    ∧ (∀ (env : String → Except String BerlinDoc) (units : List (String × String)),
        berlinScrape env none (some 0) units = .noData)
    ∧ (∀ (pages : List (List SaarlandCard)) (k : Nat),
        k ≤ pages.length →
        ((pages.take k).map (fun pg => pg.map saarlandExtractCard)).flatten ≠ [] →
        saarlandScrape pages (some k) =
          .wrote (((pages.take k).map (fun pg => pg.map saarlandExtractCard)).flatten))
    ∧ (∀ pages, saarlandScrape pages (some 0) = .noData) := by
  refine ⟨?_, ?_, ?_, ?_⟩
  · intro env units N h1 h2
    unfold berlinScrape
    rw [berlinLoopGo_stopAfter _ N units 0 [] (Nat.zero_le N)]
    simp only [Nat.sub_zero, List.nil_append]
    have hlen : ((units.take N).map (fun u => berlinGetDetails env u.2)).length = N := by
      simp only [List.length_map, List.length_take]
      omega
    unfold finalizeRun
    rw [if_neg (by
      intro hE
      rw [List.isEmpty_iff] at hE
      rw [hE] at hlen
      simp at hlen
      omega)]
  · intro env units
    unfold berlinScrape
    rw [berlinLoopGo_stopAfter _ 0 units 0 [] (Nat.le_refl 0)]
    rfl
  · intro pages k _ hne
    unfold saarlandScrape
    rw [saarlandLoop_stop k pages 0 [] (Nat.zero_le k)]
    simp only [Nat.sub_zero, List.nil_append]
    unfold finalizeRun
    rw [if_neg (by
      intro hE
      rw [List.isEmpty_iff] at hE
      exact hne hE)]
  · intro pages
    unfold saarlandScrape
    rw [saarlandLoop_stop 0 pages 0 [] (Nat.le_refl 0)]
    rfl

/-- C3 witness: a three-unit Berlin run interrupted after two units writes
exactly the first two records, in order. -/
theorem c3_interrupt_partial_write_witness :
    berlinScrape (fun i => .error (String.append "fail " i)) none (some 2)
        [("A", "1"), ("B", "2"), ("C", "3")] =
      .wrote [[("School ID", "1"), ("Error", "fail 1")],
              [("School ID", "2"), ("Error", "fail 2")]] := by
  have h := c3_interrupt_partial_write.1 (fun i => .error (String.append "fail " i))
    [("A", "1"), ("B", "2"), ("C", "3")] 2 (by omega) (by decide)
  rw [h]
  decide

/-- C10: with no interruption and no limit, every processed unit appends
exactly one record, so the written artifact's row count equals the number
of processed units; a unit whose detail fetch fails contributes a record
holding only the source id and the error message (in both the Berlin and
the Saxony scrapers). -/
theorem c10_failed_units_recorded :
    (∀ (env : String → Except String BerlinDoc) (units : List (String × String)),
      units ≠ [] →
      berlinScrape env none none units =
        .wrote (units.map (fun u => berlinGetDetails env u.2))
      ∧ (units.map (fun u => berlinGetDetails env u.2)).length = units.length)
    ∧ (∀ (env : String → Except String BerlinDoc) (schoolId m : String),
        env schoolId = .error m →
        berlinGetDetails env schoolId = [("School ID", schoolId), ("Error", m)])
    ∧ (∀ schoolId nm m : String,
        saxonyGetDetails schoolId nm (.error m) = [("School ID", schoolId), ("Error", m)]) := by
  refine ⟨?_, ?_, fun schoolId nm m => rfl⟩
  · intro env units hne
    refine ⟨?_, by simp⟩
    unfold berlinScrape
    rw [berlinLoopGo_run_all]
    simp only [List.nil_append]
    unfold finalizeRun
    rw [if_neg (by
      intro hE
      rw [List.isEmpty_iff, List.map_eq_nil_iff] at hE
      exact hne hE)]
  · intro env schoolId m h
    simp [berlinGetDetails, h]

/-- C10 witness: a single-unit run whose detail fetch fails still writes one
record, consisting of the school id and the error message. -/
theorem c10_failed_units_recorded_witness :
    berlinScrape (fun _ => .error "timeout") none none [("A", "7")] =
      .wrote [[("School ID", "7"), ("Error", "timeout")]] := by
  have h := (c10_failed_units_recorded.1 (fun _ => .error "timeout") [("A", "7")]
    (by decide)).1
  rw [h]
  decide

end EmailGather
